import Mathlib

/-!
Shallow embedding of `src/score_converter.py` (module `score_converter`,
class `GPAConverter`): the grade-conversion tables, the decimal-to-GPA
converter `_gpa`, and the two credit-weighted averages `get_iaa` and
`get_gpa`.

Modelling conventions:
* Python floats are modelled as exact rationals (`ℚ`).  Decimal literals of
  the source such as `9.7` are written `mkRat 97 10` so that the kernel can
  evaluate comparisons; the `*_matches_source_literals` theorems below check
  each table against the source's decimal literals.
* Fallible operations return `Option`: a Python exception (`ValueError` from
  `max()` on an empty selection, `KeyError` from the dict lookup
  `GPAConverter.scale[scale_id]`) is modelled as `none`.
* The two printing averages return `AvgResult`, distinguishing the three
  outcomes of the source's final division: on a zero-record transcript the
  builtin `sum` of an empty column is the Python int `0` and `0 / 0` raises
  `ZeroDivisionError` (`AvgResult.err`); on a non-empty transcript with a
  zero credit total the sums are `numpy.float64` values and dividing by
  `0.0` does not raise — it yields a non-finite float (NaN for the all-zero
  numerator case) which the method prints (`AvgResult.nonfinite`); otherwise
  the finite quotient is produced (`AvgResult.val`).
* The scraping / login / spreadsheet I/O of the class is outside the claims
  and is not modelled; `get_iaa` and `get_gpa` are modelled on their
  explicit-`transcript`-argument path, with the transcript passed as data.
-/

set_option maxRecDepth 100000

namespace ScoreConverter

/-- One row of a conversion table: the source represents it as the dict
`{'decimal': d, 'grade': g}` — `decimal` is the threshold on the decimal
scale, `grade` the GPA value awarded at or above that threshold. -/
structure ScaleEntry where
  decimal : ℚ
  grade : ℚ
deriving DecidableEq

/-- One row of the transcript DataFrame built by `get_grade_records`:
subject `code`, `subject` description, `credits` weight and decimal
`grade`. -/
structure TranscriptRecord where
  code : String
  subject : String
  credits : ℚ
  grade : ℚ
deriving DecidableEq

/-- Outcome of one of the printing average methods.  `err`: a Python
exception is raised (the zero-record `int` division `0 / 0`, an unknown
scale key, a failed grade conversion).  `nonfinite`: the `numpy.float64`
division by a zero credit total on a non-empty transcript, which raises
nothing and prints a non-finite float (`nan` when the numerator is also
zero).  `val q`: the finite average `q` is computed and printed. -/
inductive AvgResult where
  | err
  | nonfinite
  | val (q : ℚ)
deriving DecidableEq

namespace GPAConverter

/-- The value of the class attribute `scale` at key `1`
(source: http://calculadora.abroaders.com.br/). -/
def scale1 : List ScaleEntry :=
  [⟨9, 4⟩, ⟨7, 3⟩, ⟨5, 2⟩, ⟨3, 1⟩, ⟨0, 0⟩]

/-- The value of the class attribute `scale` at key `2`
(source: centralia.edu decimal grading table). -/
def scale2 : List ScaleEntry :=
  [⟨mkRat 97 10, 4⟩, ⟨mkRat 96 10, mkRat 39 10⟩, ⟨mkRat 95 10, mkRat 38 10⟩,
   ⟨mkRat 93 10, mkRat 37 10⟩, ⟨mkRat 91 10, mkRat 36 10⟩, ⟨9, mkRat 35 10⟩,
   ⟨mkRat 88 10, mkRat 34 10⟩, ⟨mkRat 87 10, mkRat 33 10⟩, ⟨mkRat 85 10, mkRat 32 10⟩,
   ⟨mkRat 84 10, mkRat 31 10⟩, ⟨mkRat 82 10, 3⟩, ⟨8, mkRat 29 10⟩,
   ⟨mkRat 79 10, mkRat 28 10⟩, ⟨mkRat 78 10, mkRat 27 10⟩, ⟨mkRat 77 10, mkRat 26 10⟩,
   ⟨mkRat 76 10, mkRat 25 10⟩, ⟨mkRat 75 10, mkRat 24 10⟩, ⟨mkRat 74 10, mkRat 23 10⟩,
   ⟨mkRat 73 10, mkRat 22 10⟩, ⟨mkRat 72 10, mkRat 21 10⟩, ⟨mkRat 71 10, 2⟩,
   ⟨7, mkRat 19 10⟩, ⟨mkRat 69 10, mkRat 18 10⟩, ⟨mkRat 68 10, mkRat 17 10⟩,
   ⟨mkRat 67 10, mkRat 16 10⟩, ⟨mkRat 66 10, mkRat 15 10⟩, ⟨mkRat 65 10, mkRat 14 10⟩,
   ⟨mkRat 64 10, mkRat 13 10⟩, ⟨mkRat 62 10, mkRat 12 10⟩, ⟨mkRat 61 10, mkRat 11 10⟩,
   ⟨6, 1⟩, ⟨0, 0⟩]

/-- The value of the class attribute `scale` at key `3`
(source: prepscholar GPA chart). -/
def scale3 : List ScaleEntry :=
  [⟨mkRat 93 10, 4⟩, ⟨9, mkRat 37 10⟩, ⟨mkRat 87 10, mkRat 33 10⟩, ⟨mkRat 83 10, 3⟩,
   ⟨8, mkRat 27 10⟩, ⟨mkRat 77 10, mkRat 23 10⟩, ⟨mkRat 73 10, 2⟩, ⟨7, mkRat 17 10⟩,
   ⟨mkRat 67 10, mkRat 13 10⟩, ⟨mkRat 65 10, 1⟩, ⟨0, 0⟩]

/-- The class attribute `scale`: a dict with keys 1, 2, 3.  Indexing it,
`GPAConverter.scale[scale_id]`, raises `KeyError` for any other key, which is
modelled by `none`. -/
def scale (scale_id : ℕ) : Option (List ScaleEntry) :=
  if scale_id = 1 then some scale1
  else if scale_id = 2 then some scale2
  else if scale_id = 3 then some scale3
  else none

/-- The static method `_gpa(grade, conversion)`:
`max(conversion.loc[conversion.decimal <= grade, 'grade'])` — the maximum of
the `grade` column over the rows whose `decimal` threshold is `≤ grade`.
Python's `max` raises `ValueError` on an empty selection, modelled by
`none` (`List.max?` of the empty list). -/
def _gpa (grade : ℚ) (conversion : List ScaleEntry) : Option ℚ :=
  ((conversion.filter fun e => decide (e.decimal ≤ grade)).map ScaleEntry.grade).max?

/-- The method `get_iaa(transcript)`:
`sum(transcript.credits * transcript.grade) / sum(transcript.credits)`.
With zero records both sums are the Python int `0`, so the division raises
`ZeroDivisionError` (`err`).  With records but a zero credit total the sums
are `numpy.float64` values and `0.0` in the denominator yields a non-finite
float (NaN when the numerator is `0.0` too) that is printed, not raised
(`nonfinite`).  Otherwise the credit-weighted decimal average is printed
(`val`). -/
def get_iaa (transcript : List TranscriptRecord) : AvgResult :=
  let den := (transcript.map TranscriptRecord.credits).sum
  if den = 0 then
    match transcript with
    | [] => .err
    | _ :: _ => .nonfinite
  else .val ((transcript.map fun r => r.credits * r.grade).sum / den)

/-- The elementwise `transcript.loc[:, 'grade'].apply(self._gpa, args=(conversion,))`
used by `get_gpa`: converts every grade of the column, failing if the
conversion of any single grade fails. -/
def applyGpa (conversion : List ScaleEntry) : List ℚ → Option (List ℚ)
  | [] => some []
  | g :: gs =>
    match _gpa g conversion, applyGpa conversion gs with
    | some v, some vs => some (v :: vs)
    | _, _ => none

/-- The method `get_gpa(scale_id, transcript)`:
looks up `GPAConverter.scale[scale_id]` (a `KeyError` there, or a
`ValueError` from converting a grade, is `err`), converts every grade with
`_gpa`, and computes
`sum(transcript.credits * converted) / sum(transcript.credits)` with the
same zero-denominator behaviour as `get_iaa`: an exception only for the
zero-record int division, a printed non-finite float for a non-empty
transcript with a zero credit total, the finite average otherwise. -/
def get_gpa (scale_id : ℕ) (transcript : List TranscriptRecord) : AvgResult :=
  match scale scale_id with
  | none => .err
  | some conversion =>
    match applyGpa conversion (transcript.map TranscriptRecord.grade) with
    | none => .err
    | some gpas =>
      let den := (transcript.map TranscriptRecord.credits).sum
      if den = 0 then
        match transcript with
        | [] => .err
        | _ :: _ => .nonfinite
      else .val ((List.zipWith (fun c v => c * v)
                   (transcript.map TranscriptRecord.credits) gpas).sum / den)

/-- Spec-side definition, following the spec's words: "select the ScaleEntry
with the greatest threshold that is ≤ decimalGrade; return its gpaValue".
On a table listed in decreasing threshold order this is the first entry whose
threshold is `≤ grade`. -/
def specStepLookup (grade : ℚ) (conversion : List ScaleEntry) : Option ℚ :=
  (conversion.find? fun e => decide (e.decimal ≤ grade)).map ScaleEntry.grade

/-- Spec-side predicate: `e` is the "best" entry of `conversion` for grade
`g` — it applies (`e.decimal ≤ g`) and no applicable entry has a greater
threshold. -/
def IsBestEntry (g : ℚ) (conversion : List ScaleEntry) (e : ScaleEntry) : Prop :=
  e ∈ conversion ∧ e.decimal ≤ g ∧
    ∀ e2 ∈ conversion, e2.decimal ≤ g → e2.decimal ≤ e.decimal

/-- The table invariant of the spec's data model: thresholds strictly
decrease in listed order, and (as the reference tables also satisfy) the GPA
values never increase down the list. -/
@[reducible] def SortedTable (conversion : List ScaleEntry) : Prop :=
  conversion.Pairwise fun a b => b.decimal < a.decimal ∧ b.grade ≤ a.grade

theorem scale1_sorted : SortedTable scale1 := by decide

theorem scale2_sorted : SortedTable scale2 := by decide

theorem scale3_sorted : SortedTable scale3 := by decide

theorem scale1_zero_entry : (⟨0, 0⟩ : ScaleEntry) ∈ scale1 := by decide

theorem scale2_zero_entry : (⟨0, 0⟩ : ScaleEntry) ∈ scale2 := by decide

theorem scale3_zero_entry : (⟨0, 0⟩ : ScaleEntry) ∈ scale3 := by decide

/-- The entries of `scale1` are exactly the literals of the source dict
(`{'decimal': 9, 'grade': 4.0}`, ...). -/
theorem scale1_matches_source_literals :
    scale1 = [⟨9, 4.0⟩, ⟨7, 3.0⟩, ⟨5, 2⟩, ⟨3, 1⟩, ⟨0, 0⟩] := by
  norm_num [scale1, ScaleEntry.mk.injEq]

/-- The entries of `scale2` are exactly the decimal literals of the source
dict. -/
theorem scale2_matches_source_literals :
    scale2 =
      [⟨9.7, 4.0⟩, ⟨9.6, 3.9⟩, ⟨9.5, 3.8⟩, ⟨9.3, 3.7⟩, ⟨9.1, 3.6⟩, ⟨9.0, 3.5⟩,
       ⟨8.8, 3.4⟩, ⟨8.7, 3.3⟩, ⟨8.5, 3.2⟩, ⟨8.4, 3.1⟩, ⟨8.2, 3.0⟩, ⟨8.0, 2.9⟩,
       ⟨7.9, 2.8⟩, ⟨7.8, 2.7⟩, ⟨7.7, 2.6⟩, ⟨7.6, 2.5⟩, ⟨7.5, 2.4⟩, ⟨7.4, 2.3⟩,
       ⟨7.3, 2.2⟩, ⟨7.2, 2.1⟩, ⟨7.1, 2.0⟩, ⟨7.0, 1.9⟩, ⟨6.9, 1.8⟩, ⟨6.8, 1.7⟩,
       ⟨6.7, 1.6⟩, ⟨6.6, 1.5⟩, ⟨6.5, 1.4⟩, ⟨6.4, 1.3⟩, ⟨6.2, 1.2⟩, ⟨6.1, 1.1⟩,
       ⟨6.0, 1.0⟩, ⟨0, 0⟩] := by
  norm_num [scale2, ScaleEntry.mk.injEq, Rat.mkRat_eq_div]

/-- The entries of `scale3` are exactly the decimal literals of the source
dict. -/
theorem scale3_matches_source_literals :
    scale3 =
      [⟨9.3, 4.0⟩, ⟨9.0, 3.7⟩, ⟨8.7, 3.3⟩, ⟨8.3, 3.0⟩, ⟨8.0, 2.7⟩, ⟨7.7, 2.3⟩,
       ⟨7.3, 2.0⟩, ⟨7.0, 1.7⟩, ⟨6.7, 1.3⟩, ⟨6.5, 1.0⟩, ⟨0, 0.0⟩] := by
  norm_num [scale3, ScaleEntry.mk.injEq, Rat.mkRat_eq_div]

/-- Characterisation of the converter: `_gpa g tbl = some v` iff `v` is the
grade of some applicable entry and dominates the grades of all applicable
entries (it is Python's `max` over the filtered `grade` column). -/
theorem gpa_eq_some_iff {g v : ℚ} {tbl : List ScaleEntry} :
    _gpa g tbl = some v ↔
      (∃ e ∈ tbl, e.decimal ≤ g ∧ e.grade = v) ∧
        ∀ e ∈ tbl, e.decimal ≤ g → e.grade ≤ v := by
  haveI : Std.Antisymm ((· ≤ ·) : ℚ → ℚ → Prop) := ⟨fun h1 h2 => le_antisymm h1 h2⟩
  unfold _gpa
  rw [List.max?_eq_some_iff (fun a => le_refl a) max_choice fun _ _ _ => max_le_iff]
  simp only [List.mem_map, List.mem_filter, decide_eq_true_eq]
  constructor
  · rintro ⟨⟨e, ⟨he, hd⟩, hg⟩, hub⟩
    exact ⟨⟨e, he, hd, hg⟩, fun e2 he2 hd2 => hub e2.grade ⟨e2, ⟨he2, hd2⟩, rfl⟩⟩
  · rintro ⟨⟨e, he, hd, hg⟩, hub⟩
    exact ⟨⟨e, ⟨he, hd⟩, hg⟩, fun b ⟨e2, ⟨he2, hd2⟩, hg2⟩ => hg2 ▸ hub e2 he2 hd2⟩

/-- The converter fails exactly when no entry of the table applies. -/
theorem gpa_eq_none_iff {g : ℚ} {tbl : List ScaleEntry} :
    _gpa g tbl = none ↔ ∀ e ∈ tbl, ¬ e.decimal ≤ g := by
  unfold _gpa
  rw [List.max?_eq_none_iff, List.map_eq_nil_iff, List.filter_eq_nil_iff]
  simp only [decide_eq_true_eq]

/-- On a table sorted in decreasing threshold order with non-increasing
grades, the code's max-based lookup agrees with the spec's step lookup: the
first applicable entry wins. -/
theorem gpa_eq_specStepLookup {tbl : List ScaleEntry} (hs : SortedTable tbl) (g : ℚ) :
    _gpa g tbl = specStepLookup g tbl := by
  induction tbl with
  | nil => rfl
  | cons e rest ih =>
    rcases List.pairwise_cons.mp hs with ⟨hhead, htail⟩
    by_cases hd : e.decimal ≤ g
    · have hfind : specStepLookup g (e :: rest) = some e.grade := by
        unfold specStepLookup
        rw [List.find?_cons_of_pos _ (by simpa using hd)]
        rfl
      rw [hfind, gpa_eq_some_iff]
      refine ⟨⟨e, List.mem_cons_self e rest, hd, rfl⟩, ?_⟩
      rintro e2 he2 _
      rcases List.mem_cons.mp he2 with rfl | he2
      · exact le_refl _
      · exact (hhead e2 he2).2
    · have h1 : _gpa g (e :: rest) = _gpa g rest := by
        unfold _gpa
        rw [List.filter_cons, if_neg (by simpa using hd)]
      have h2 : specStepLookup g (e :: rest) = specStepLookup g rest := by
        unfold specStepLookup
        rw [List.find?_cons_of_neg _ (by simpa using hd)]
      rw [h1, h2, ih htail]

/-- If some entry of the table applies, the converter produces a value
(`max` is taken over a non-empty selection). -/
theorem gpa_isSome_of_applicable {tbl : List ScaleEntry} {g : ℚ} {e : ScaleEntry}
    (he : e ∈ tbl) (hd : e.decimal ≤ g) : ∃ v, _gpa g tbl = some v := by
  cases hv : _gpa g tbl with
  | some v => exact ⟨v, rfl⟩
  | none => exact absurd hd (gpa_eq_none_iff.mp hv e he)

/-- On a list with strictly decreasing thresholds, the first applicable
entry has the greatest threshold among all applicable entries. -/
theorem find?_first_applicable_greatest {tbl : List ScaleEntry}
    (hs : tbl.Pairwise fun a b => b.decimal < a.decimal) {g : ℚ} {e : ScaleEntry}
    (hf : tbl.find? (fun x => decide (x.decimal ≤ g)) = some e) :
    ∀ e2 ∈ tbl, e2.decimal ≤ g → e2.decimal ≤ e.decimal := by
  induction tbl with
  | nil => simp at hf
  | cons a rest ih =>
    rcases List.pairwise_cons.mp hs with ⟨hhead, htail⟩
    by_cases ha : a.decimal ≤ g
    · rw [List.find?_cons_of_pos _ (by simpa using ha)] at hf
      cases hf
      rintro e2 he2 _
      rcases List.mem_cons.mp he2 with rfl | he2
      · exact le_refl _
      · exact (hhead e2 he2).le
    · rw [List.find?_cons_of_neg _ (by simpa using ha)] at hf
      rintro e2 he2 hd2
      rcases List.mem_cons.mp he2 with rfl | he2
      · exact absurd hd2 ha
      · exact ih htail hf e2 he2 hd2

/-- Strictly decreasing thresholds determine the entry: two entries of such
a table with the same threshold are the same entry. -/
theorem entry_eq_of_decimal_eq {tbl : List ScaleEntry}
    (hs : tbl.Pairwise fun a b => b.decimal < a.decimal) :
    ∀ e1 ∈ tbl, ∀ e2 ∈ tbl, e1.decimal = e2.decimal → e1 = e2 := by
  induction tbl with
  | nil => simp
  | cons a rest ih =>
    rcases List.pairwise_cons.mp hs with ⟨hhead, htail⟩
    rintro e1 he1 e2 he2 hd
    rcases List.mem_cons.mp he1 with h1 | h1
    · rcases List.mem_cons.mp he2 with h2 | h2
      · rw [h1, h2]
      · exact absurd (h1 ▸ hd) (ne_of_gt (hhead e2 h2))
    · rcases List.mem_cons.mp he2 with h2 | h2
      · exact absurd (h2 ▸ hd) (ne_of_lt (hhead e1 h1))
      · exact ih htail e1 h1 e2 h2 hd

/-- On a sorted table containing an applicable entry, the converter returns
the grade of a best (greatest-applicable-threshold) entry. -/
theorem gpa_best_entry {tbl : List ScaleEntry} (hs : SortedTable tbl)
    {e0 : ScaleEntry} (h0 : e0 ∈ tbl) {g : ℚ} (hg : e0.decimal ≤ g) :
    ∃ e, IsBestEntry g tbl e ∧ _gpa g tbl = some e.grade := by
  have hsome : (tbl.find? fun x => decide (x.decimal ≤ g)).isSome := by
    rw [List.find?_isSome]
    exact ⟨e0, h0, by simpa using hg⟩
  rcases Option.isSome_iff_exists.mp hsome with ⟨e, hf⟩
  refine ⟨e, ⟨List.mem_of_find?_eq_some hf, by simpa using List.find?_some hf,
    find?_first_applicable_greatest (hs.imp fun h => h.1) hf⟩, ?_⟩
  rw [gpa_eq_specStepLookup hs g]
  unfold specStepLookup
  rw [hf]
  rfl

/-- Monotonicity of the converter in the grade. -/
theorem gpa_mono {tbl : List ScaleEntry} {g1 g2 v1 : ℚ} (hg : g1 ≤ g2)
    (h1 : _gpa g1 tbl = some v1) : ∃ v2, _gpa g2 tbl = some v2 ∧ v1 ≤ v2 := by
  rcases gpa_eq_some_iff.mp h1 with ⟨⟨e, he, hd, hv⟩, _⟩
  rcases gpa_isSome_of_applicable he (hd.trans hg) with ⟨v2, h2⟩
  rcases gpa_eq_some_iff.mp h2 with ⟨_, hub⟩
  exact ⟨v2, h2, hv ▸ hub e he (hd.trans hg)⟩

/-- A table produced by the `scale` lookup is one of the three class tables. -/
theorem scale_cases {i : ℕ} {tbl : List ScaleEntry} (h : scale i = some tbl) :
    tbl = scale1 ∨ tbl = scale2 ∨ tbl = scale3 := by
  unfold scale at h
  split at h
  · exact Or.inl (Option.some.inj h).symm
  · split at h
    · exact Or.inr (Or.inl (Option.some.inj h).symm)
    · split at h
      · exact Or.inr (Or.inr (Option.some.inj h).symm)
      · cases h

theorem scale_sorted {i : ℕ} {tbl : List ScaleEntry} (h : scale i = some tbl) :
    SortedTable tbl := by
  rcases scale_cases h with rfl | rfl | rfl
  exacts [scale1_sorted, scale2_sorted, scale3_sorted]

theorem scale_zero_entry {i : ℕ} {tbl : List ScaleEntry} (h : scale i = some tbl) :
    (⟨0, 0⟩ : ScaleEntry) ∈ tbl := by
  rcases scale_cases h with rfl | rfl | rfl
  exacts [scale1_zero_entry, scale2_zero_entry, scale3_zero_entry]

theorem scale_decimals_nonneg {i : ℕ} {tbl : List ScaleEntry} (h : scale i = some tbl) :
    ∀ e ∈ tbl, 0 ≤ e.decimal := by
  rcases scale_cases h with rfl | rfl | rfl <;> decide

/-- The elementwise conversion succeeds on a column of grades on which every
single conversion succeeds, and produces the converted column. -/
theorem applyGpa_eq_map {tbl : List ScaleEntry} {f : ℚ → ℚ} :
    ∀ {gs : List ℚ}, (∀ g ∈ gs, _gpa g tbl = some (f g)) →
      applyGpa tbl gs = some (gs.map f) := by
  intro gs
  induction gs with
  | nil => intro _; rfl
  | cons g gs ih =>
    intro h
    have hg := h g (List.mem_cons_self g gs)
    have hgs := ih fun x hx => h x (List.mem_cons_of_mem g hx)
    simp only [applyGpa, hg, hgs, List.map_cons]

/-- Pairing the credit column with the converted-grade column multiplies
them record by record. -/
theorem zipWith_credits_map (f : ℚ → ℚ) :
    ∀ t : List TranscriptRecord,
      List.zipWith (fun c v => c * v) (t.map TranscriptRecord.credits)
          ((t.map TranscriptRecord.grade).map f) =
        t.map fun r => r.credits * f r.grade := by
  intro t
  induction t with
  | nil => rfl
  | cons r t ih => simp only [List.map_cons, List.zipWith_cons_cons, ih]

/-- C1: for every registered scale and every decimal grade `g ≥ 0` (which
covers the scale's 0–10 domain), `_gpa` agrees with the spec's step lookup
and returns the gpaValue of an entry with the greatest threshold that is
`≤ g` — a floor lookup over the sorted breakpoints, not interpolation. -/
theorem c1_convert_is_floor_lookup :
    ∀ (i : ℕ) (tbl : List ScaleEntry), scale i = some tbl → ∀ g : ℚ, 0 ≤ g →
      _gpa g tbl = specStepLookup g tbl ∧
        ∃ e, IsBestEntry g tbl e ∧ _gpa g tbl = some e.grade := by
  intro i tbl hi g hg
  have hs := scale_sorted hi
  exact ⟨gpa_eq_specStepLookup hs g,
    gpa_best_entry hs (scale_zero_entry hi) (by simpa using hg)⟩

/-- Witness for C1 at scale 1 and grade 8. -/
theorem c1_convert_is_floor_lookup_witness :
    _gpa 8 scale1 = specStepLookup 8 scale1 ∧
      ∃ e, IsBestEntry 8 scale1 e ∧ _gpa 8 scale1 = some e.grade :=
  c1_convert_is_floor_lookup 1 scale1 rfl 8 (by norm_num)

/-- C2: for every registered scale the converter is monotone non-decreasing
on the domain `g ≥ 0`: both conversions succeed and the converted values are
ordered like the grades. -/
theorem c2_convert_monotone :
    ∀ (i : ℕ) (tbl : List ScaleEntry), scale i = some tbl →
      ∀ g1 g2 : ℚ, 0 ≤ g1 → g1 ≤ g2 →
        ∃ v1 v2, _gpa g1 tbl = some v1 ∧ _gpa g2 tbl = some v2 ∧ v1 ≤ v2 := by
  intro i tbl hi g1 g2 h0 h12
  rcases gpa_isSome_of_applicable (scale_zero_entry hi) (by simpa using h0) with ⟨v1, h1⟩
  rcases gpa_mono h12 h1 with ⟨v2, h2, hle⟩
  exact ⟨v1, v2, h1, h2, hle⟩

/-- Witness for C2 at scale 1 with grades 5 and 9. -/
theorem c2_convert_monotone_witness :
    ∃ v1 v2, _gpa 5 scale1 = some v1 ∧ _gpa 9 scale1 = some v2 ∧ v1 ≤ v2 :=
  c2_convert_monotone 1 scale1 rfl 5 9 (by norm_num) (by norm_num)

/-- C3 counterexample: under scale 1 the grade 8.9 converts to 3.0, not to
the claimed 2 — the table does contain a 7-threshold entry with gpaValue
3.0, and 8.9 falls into that bucket. -/
theorem c3_counterexample :
    _gpa (8.9 : ℚ) scale1 = some 3 ∧ _gpa (8.9 : ℚ) scale1 ≠ some 2 := by
  have h : (8.9 : ℚ) = mkRat 89 10 := by rw [Rat.mkRat_eq_div]; norm_num
  rw [h]
  decide

/-- C3 (amended): under scale 1 grade 9 converts to 4.0 and grade 8.9
converts to 3.0 (it falls to the 7-threshold bucket) — still step semantics,
not interpolation. -/
theorem c3_scale1_sample_grades :
    _gpa 9 scale1 = some 4 ∧ _gpa (8.9 : ℚ) scale1 = some (3.0 : ℚ) := by
  have h : (8.9 : ℚ) = mkRat 89 10 := by rw [Rat.mkRat_eq_div]; norm_num
  have h3 : (3.0 : ℚ) = 3 := by norm_num
  rw [h, h3]
  decide

/-- C4 counterexample: grade 15 is far above the 0–10 domain of scale 1,
yet the converter raises no error and returns 4. -/
theorem c4_counterexample :
    _gpa 15 scale1 ≠ none ∧ _gpa 15 scale1 = some 4 := by decide

/-- C4 (amended): only the lower end of the domain is enforced — a negative
grade (below every threshold) makes the conversion fail, while a grade above
the scale's domain is not checked and yields the maximal gpaValue. -/
theorem c4_negative_fails_no_upper_check :
    (∀ (i : ℕ) (tbl : List ScaleEntry), scale i = some tbl →
        ∀ g : ℚ, g < 0 → _gpa g tbl = none) ∧
      _gpa 15 scale1 = some 4 := by
  constructor
  · intro i tbl hi g hg
    rw [gpa_eq_none_iff]
    intro e he hd
    exact absurd (lt_of_le_of_lt hd hg) (not_lt.mpr (scale_decimals_nonneg hi e he))
  · decide

/-- Witness for the amended C4 at scale 1 and grade -1. -/
theorem c4_negative_fails_no_upper_check_witness :
    _gpa (-1) scale1 = none :=
  c4_negative_fails_no_upper_check.1 1 scale1 rfl (-1) (by norm_num)

/-- C5: every breakpoint converts exactly to its own gpaValue (inclusive
lower bound), and grade 0 converts to 0 under all three reference scales. -/
theorem c5_breakpoints_exact :
    (∀ (i : ℕ) (tbl : List ScaleEntry), scale i = some tbl →
        ∀ e ∈ tbl, _gpa e.decimal tbl = some e.grade) ∧
      _gpa 0 scale1 = some 0 ∧ _gpa 0 scale2 = some 0 ∧ _gpa 0 scale3 = some 0 := by
  constructor
  · intro i tbl hi
    rcases scale_cases hi with rfl | rfl | rfl <;> decide
  · exact ⟨by decide, by decide, by decide⟩

/-- Witness for C5 at the 9-threshold breakpoint of scale 1. -/
theorem c5_breakpoints_exact_witness :
    _gpa (ScaleEntry.mk 9 4).decimal scale1 = some (ScaleEntry.mk 9 4).grade :=
  c5_breakpoints_exact.1 1 scale1 rfl ⟨9, 4⟩ (by decide)

/-- C6: whenever the scale is registered, every grade converts, and the
credit total is non-zero, `get_gpa` returns exactly the credit-weighted mean
of the converted grades; in particular the transcript
[{credits: 3, grade: 9.5}, {credits: 1, grade: 5.0}] under scale 1 averages
to (3×4.0 + 1×2)/4 = 3.5. -/
theorem c6_gpa_weighted_mean :
    (∀ (t : List TranscriptRecord) (i : ℕ) (tbl : List ScaleEntry) (f : ℚ → ℚ),
        scale i = some tbl →
        (∀ r ∈ t, _gpa r.grade tbl = some (f r.grade)) →
        (t.map TranscriptRecord.credits).sum ≠ 0 →
        get_gpa i t = AvgResult.val ((t.map fun r => r.credits * f r.grade).sum /
            (t.map TranscriptRecord.credits).sum)) ∧
      get_gpa 1 [⟨"", "", 3, 9.5⟩, ⟨"", "", 1, 5.0⟩] = AvgResult.val (3.5 : ℚ) := by
  constructor
  · intro t i tbl f hi hconv hden
    have happ : applyGpa tbl (t.map TranscriptRecord.grade) =
        some ((t.map TranscriptRecord.grade).map f) := by
      apply applyGpa_eq_map
      intro g hg
      rcases List.mem_map.mp hg with ⟨r, hr, rfl⟩
      exact hconv r hr
    simp only [get_gpa, hi, happ, zipWith_credits_map, if_neg hden]
  · have h95 : _gpa (9.5 : ℚ) scale1 = some 4 := by
      have h : (9.5 : ℚ) = mkRat 19 2 := by rw [Rat.mkRat_eq_div]; norm_num
      rw [h]; decide
    have h5 : _gpa (5.0 : ℚ) scale1 = some 2 := by
      have h : (5.0 : ℚ) = 5 := by norm_num
      rw [h]; decide
    have hsc : scale 1 = some scale1 := rfl
    simp only [get_gpa, hsc, applyGpa, List.map_cons, List.map_nil, h95, h5,
      List.zipWith_cons_cons, List.zipWith_nil_right, List.sum_cons, List.sum_nil]
    norm_num [AvgResult.val.injEq]

/-- Witness for the universal part of C6: a one-record transcript with
credits 1 and grade 9 under scale 1. -/
theorem c6_gpa_weighted_mean_witness :
    get_gpa 1 [⟨"", "", 1, 9⟩] =
      AvgResult.val (([(⟨"", "", 1, 9⟩ : TranscriptRecord)].map fun r =>
          r.credits * (fun _ : ℚ => (4 : ℚ)) r.grade).sum /
        ([(⟨"", "", 1, 9⟩ : TranscriptRecord)].map TranscriptRecord.credits).sum) :=
  c6_gpa_weighted_mean.1 [⟨"", "", 1, 9⟩] 1 scale1 (fun _ => 4) rfl (by decide)
    (by simp)

/-- C7 counterexample: on the non-empty transcript [{credits: 0, grade: 7}]
the credit total is zero, yet neither average fails — the numpy float
division produces a non-finite value (NaN) that the methods print, so the
claimed failure does not occur. -/
theorem c7_counterexample :
    (get_iaa [⟨"", "", 0, 7⟩] = AvgResult.nonfinite ∧
        get_iaa [⟨"", "", 0, 7⟩] ≠ AvgResult.err) ∧
      get_gpa 1 [⟨"", "", 0, 7⟩] = AvgResult.nonfinite ∧
        get_gpa 1 [⟨"", "", 0, 7⟩] ≠ AvgResult.err := by
  have hden : ([(⟨"", "", 0, 7⟩ : TranscriptRecord)].map TranscriptRecord.credits).sum = 0 := by
    simp
  have h1 : get_iaa [⟨"", "", 0, 7⟩] = AvgResult.nonfinite := by
    simp only [get_iaa, hden, if_pos]
  have h2 : get_gpa 1 [⟨"", "", 0, 7⟩] = AvgResult.nonfinite := by
    have h7 : _gpa 7 scale1 = some 3 := by decide
    have hsc : scale 1 = some scale1 := rfl
    simp only [get_gpa, hsc, applyGpa, List.map_cons, List.map_nil, h7,
      List.sum_cons, List.sum_nil, add_zero, if_pos]
  refine ⟨⟨h1, ?_⟩, h2, ?_⟩
  · rw [h1]; decide
  · rw [h2]; decide

/-- C7 (amended): with zero records both averages do fail (both column sums
are the Python int 0 and `0 / 0` raises `ZeroDivisionError`); with records
but an all-zero credit column neither average fails — the float division by
the `0.0` credit total yields a non-finite value (NaN) which is printed in
place of an average. -/
theorem c7_zero_weight_no_error :
    (get_iaa [] = AvgResult.err ∧ ∀ i : ℕ, get_gpa i [] = AvgResult.err) ∧
      ∀ t : List TranscriptRecord, t ≠ [] → (∀ r ∈ t, r.credits = 0) →
        get_iaa t = AvgResult.nonfinite ∧
          ∀ (i : ℕ) (tbl : List ScaleEntry) (f : ℚ → ℚ), scale i = some tbl →
            (∀ r ∈ t, _gpa r.grade tbl = some (f r.grade)) →
            get_gpa i t = AvgResult.nonfinite := by
  constructor
  · constructor
    · rfl
    · intro i
      cases hsc : scale i with
      | none => simp only [get_gpa, hsc]
      | some conversion =>
        simp only [get_gpa, hsc, applyGpa, List.map_nil, List.sum_nil, if_pos]
  · intro t ht hz
    have hden : (t.map TranscriptRecord.credits).sum = 0 := by
      apply List.sum_eq_zero
      intro x hx
      rcases List.mem_map.mp hx with ⟨r, hr, rfl⟩
      exact hz r hr
    cases t with
    | nil => exact absurd rfl ht
    | cons r t2 =>
      constructor
      · simp only [get_iaa, hden, if_pos]
      · intro i tbl f hsc hconv
        have happ : applyGpa tbl ((r :: t2).map TranscriptRecord.grade) =
            some (((r :: t2).map TranscriptRecord.grade).map f) := by
          apply applyGpa_eq_map
          intro g hg
          rcases List.mem_map.mp hg with ⟨r2, hr2, rfl⟩
          exact hconv r2 hr2
        simp only [get_gpa, hsc, happ, hden, if_pos]

/-- Witness for the amended C7: a one-record transcript with credit weight
0 and grade 9 under scale 1. -/
theorem c7_zero_weight_no_error_witness :
    get_iaa [⟨"", "", 0, 9⟩] = AvgResult.nonfinite ∧
      get_gpa 1 [⟨"", "", 0, 9⟩] = AvgResult.nonfinite := by
  have h := c7_zero_weight_no_error.2 [⟨"", "", 0, 9⟩] (by decide) (by decide)
  exact ⟨h.1, h.2 1 scale1 (fun _ => 4) rfl (by decide)⟩

/-- C8: the `scale` lookup is `none` exactly on unregistered identifiers
(for example 99), and on the registered identifiers 1, 2, 3 it returns the
corresponding ordered breakpoint table; it is a pure function, so it has no
side effects. -/
theorem c8_scale_lookup_total :
    scale 99 = none ∧
      (∀ i : ℕ, i ≠ 1 → i ≠ 2 → i ≠ 3 → scale i = none) ∧
      scale 1 = some scale1 ∧ scale 2 = some scale2 ∧ scale 3 = some scale3 := by
  refine ⟨rfl, ?_, rfl, rfl, rfl⟩
  intro i h1 h2 h3
  unfold scale
  rw [if_neg h1, if_neg h2, if_neg h3]

/-- Witness for C8 at the unregistered identifier 99. -/
theorem c8_scale_lookup_total_witness : scale 99 = none :=
  c8_scale_lookup_total.2.1 99 (by decide) (by decide) (by decide)

/-- C9: each registered table has strictly decreasing thresholds, contains
the catch-all 0 threshold (its minimum), and for every grade `g ≥ 0` exactly
one best (greatest applicable threshold) entry applies. -/
theorem c9_scale_invariant_unique_best :
    ∀ (i : ℕ) (tbl : List ScaleEntry), scale i = some tbl →
      (tbl.Pairwise fun a b => b.decimal < a.decimal) ∧
        ((⟨0, 0⟩ : ScaleEntry) ∈ tbl ∧ ∀ e ∈ tbl, 0 ≤ e.decimal) ∧
        ∀ g : ℚ, 0 ≤ g → ∃! e, IsBestEntry g tbl e := by
  intro i tbl hi
  have hs := scale_sorted hi
  have hstrict : tbl.Pairwise fun a b => b.decimal < a.decimal := hs.imp fun h => h.1
  refine ⟨hstrict, ⟨scale_zero_entry hi, scale_decimals_nonneg hi⟩, ?_⟩
  intro g hg
  rcases gpa_best_entry hs (scale_zero_entry hi) (by simpa using hg) with ⟨e, hbest, _⟩
  refine ⟨e, hbest, ?_⟩
  rintro e2 ⟨he2, hd2, hmax2⟩
  exact entry_eq_of_decimal_eq hstrict e2 he2 e hbest.1
    (le_antisymm (hbest.2.2 e2 he2 hd2) (hmax2 e hbest.1 hbest.2.1))

/-- Witness for C9: unique best entry of scale 1 at grade 5. -/
theorem c9_scale_invariant_unique_best_witness :
    ∃! e, IsBestEntry 5 scale1 e :=
  (c9_scale_invariant_unique_best 1 scale1 rfl).2.2 5 (by norm_num)

/-- C10: above the greatest threshold of each registered scale (9, 9.7 and
9.3 respectively) the converter performs no upper-bound check: it returns
the table's maximal gpaValue 4.0 and no error. -/
theorem c10_above_top_threshold_gives_max :
    (∀ g : ℚ, 9 < g → _gpa g scale1 = some 4) ∧
      (∀ g : ℚ, mkRat 97 10 < g → _gpa g scale2 = some 4) ∧
      (∀ g : ℚ, mkRat 93 10 < g → _gpa g scale3 = some 4) := by
  refine ⟨fun g hg => ?_, fun g hg => ?_, fun g hg => ?_⟩
  · have hmax : ∀ e ∈ scale1, ScaleEntry.grade e ≤ 4 := by decide
    rw [gpa_eq_some_iff]
    exact ⟨⟨⟨9, 4⟩, by decide, le_of_lt hg, rfl⟩, fun e he _ => hmax e he⟩
  · have hmax : ∀ e ∈ scale2, ScaleEntry.grade e ≤ 4 := by decide
    rw [gpa_eq_some_iff]
    exact ⟨⟨⟨mkRat 97 10, 4⟩, by decide, le_of_lt hg, rfl⟩, fun e he _ => hmax e he⟩
  · have hmax : ∀ e ∈ scale3, ScaleEntry.grade e ≤ 4 := by decide
    rw [gpa_eq_some_iff]
    exact ⟨⟨⟨mkRat 93 10, 4⟩, by decide, le_of_lt hg, rfl⟩, fun e he _ => hmax e he⟩

/-- Witness for C10 at grade 15 on all three scales. -/
theorem c10_above_top_threshold_gives_max_witness :
    _gpa 15 scale2 = some 4 ∧ _gpa 15 scale3 = some 4 :=
  ⟨c10_above_top_threshold_gives_max.2.1 15 (by decide),
   c10_above_top_threshold_gives_max.2.2 15 (by decide)⟩

end GPAConverter

end ScoreConverter
